import Mathlib

/-!
Verification of the resoto config-handler subsystem against its
natural-language specification.

The Python sources embedded here:
  * resotocore/util.py            (deep_merge, set_future_result, restart_service)
  * resotocore/config/config_handler_service.py
  * resotocore/config/core_config_handler.py  (event handling)
  * resotocore/db/entitydb.py     (ArangoEntityDb.update)
  * resotocore/__main__.py        (run: restart supervisor loop)

JSON values are modelled with an inductive type; Python dicts become
insertion-ordered association lists, as in CPython.  The Arango document
store itself (async_arangodb) is not part of the sources and is modelled
from the specification's external-interface section.
-/

/-- JSON values.  Python dicts are association lists in insertion order;
numbers are modelled as integers (fractional values play no role in any
claim considered here). -/
inductive Json where
  | null : Json
  | bool (b : Bool) : Json
  | num (n : Int) : Json
  | str (s : String) : Json
  | arr (xs : List Json) : Json
  | obj (kvs : List (String × Json)) : Json

/-- Python `d.get(k)` on a dict: the value of the first binding of `k`,
`none` when the key is absent. -/
def lookupJ (k : String) : List (String × Json) → Option Json
  | [] => none
  | (k', v) :: rest => if k' = k then some v else lookupJ k rest

/-- Python truthiness of a JSON value: `None`, `False`, `0`, `""`, `[]`
and `\x7b\x7d` are falsy, everything else is truthy. -/
def falsy : Json → Bool
  | Json.null => true
  | Json.bool b => !b
  | Json.num n => n == 0
  | Json.str s => s.isEmpty
  | Json.arr xs => xs.isEmpty
  | Json.obj kvs => kvs.isEmpty

/-- Keys of a dict, in insertion order. -/
def keysOf (kvs : List (String × Json)) : List String :=
  kvs.map Prod.fst

/-- Union `set(left.keys()).union(right.keys())` : every key of `left`, then the
keys of `right` that are not keys of `left`.  (CPython iterates the set in
an unspecified order; this order is one valid choice, and all facts proved
below are either order-insensitive or about per-key lookups.) -/
def unionKeys (l r : List String) : List String :=
  l ++ r.filter (fun k => !(l.contains k))

theorem lookupJ_sizeOf (k : String) :
    ∀ (l : List (String × Json)) (v : Json), lookupJ k l = some v → sizeOf v < sizeOf l := by
  intro l
  induction l with
  | nil => intro v h; simp [lookupJ] at h
  | cons hd tl ih =>
    intro v h
    obtain ⟨k', w⟩ := hd
    simp only [lookupJ] at h
    by_cases hk : k' = k
    · simp [hk] at h
      subst h
      simp
      omega
    · simp [hk] at h
      have := ih v h
      simp
      omega

/-- The per-key merge of `deep_merge` (util.py), evaluated along an explicit
list of keys.  `merge(key)`:
  * if the right value is a dict, recursively merge the left value
    (coerced to the empty dict when not a dict) with it;
  * else if the right value is truthy, take the right value;
  * else take `left.get(key)` (which is `None` when the key is absent). -/
def deepMergeKeys (left right : List (String × Json)) : List String → List (String × Json)
  | [] => []
  | k :: ks =>
    let v : Json :=
      match hr : lookupJ k right with
      | some (Json.obj ro) =>
        let lo : List (String × Json) :=
          match lookupJ k left with
          | some (Json.obj x) => x
          | _ => []
        Json.obj (deepMergeKeys lo ro (unionKeys (keysOf lo) (keysOf ro)))
      | some rv => if falsy rv then (lookupJ k left).getD Json.null else rv
      | none => (lookupJ k left).getD Json.null
    (k, v) :: deepMergeKeys left right ks
termination_by ks => (sizeOf right, ks.length)
decreasing_by
  · have h1 : sizeOf (Json.obj ro) < sizeOf right := lookupJ_sizeOf k right _ hr
    have h2 : sizeOf ro < sizeOf (Json.obj ro) := by simp
    exact Prod.Lex.left _ _ (by omega)
  · exact Prod.Lex.right _ (by simp [List.length_cons])

/-- Function `deep_merge(left, right)` from util.py: merge the right json into the
left json, producing a value for every key of the union of key sets. -/
def deep_merge (left right : List (String × Json)) : List (String × Json) :=
  deepMergeKeys left right (unionKeys (keysOf left) (keysOf right))

/-- The value `deep_merge` computes for a single key (the body of the inner
`merge` closure in util.py). -/
def mergeVal (left right : List (String × Json)) (k : String) : Json :=
  match lookupJ k right with
  | some (Json.obj ro) =>
    let lo : List (String × Json) :=
      match lookupJ k left with
      | some (Json.obj x) => x
      | _ => []
    Json.obj (deep_merge lo ro)
  | some rv => if falsy rv then (lookupJ k left).getD Json.null else rv
  | none => (lookupJ k left).getD Json.null

theorem deepMergeKeys_eq_map (left right : List (String × Json)) (ks : List String) :
    deepMergeKeys left right ks = ks.map (fun k => (k, mergeVal left right k)) := by
  induction ks with
  | nil => simp [deepMergeKeys]
  | cons k ks ih =>
    rw [deepMergeKeys]
    simp only [List.map_cons, ih]
    congr 1
    simp only [mergeVal, deep_merge]
    rcases hr : lookupJ k right with _ | rv
    · rfl
    · cases rv <;> simp

/-- A dict has no duplicate keys (Python dicts cannot). -/
def nodupKeys : List (String × Json) → Bool
  | [] => true
  | (k, _) :: rest => (lookupJ k rest).isNone && nodupKeys rest

mutual

/-- Well-formed JSON: every object, also nested, has pairwise distinct keys
(true of anything obtained from a Python dict). -/
def JsonWf : Json → Bool
  | Json.null => true
  | Json.bool _ => true
  | Json.num _ => true
  | Json.str _ => true
  | Json.arr xs => jsonWfArr xs
  | Json.obj kvs => nodupKeys kvs && jsonWfObj kvs

def jsonWfArr : List Json → Bool
  | [] => true
  | x :: xs => JsonWf x && jsonWfArr xs

def jsonWfObj : List (String × Json) → Bool
  | [] => true
  | (_, v) :: rest => JsonWf v && jsonWfObj rest

end

mutual

/-- Python `==` on JSON values: scalars by value, lists element-wise,
dicts as finite maps (insertion order ignored). -/
def pyEq : Json → Json → Bool
  | Json.null, Json.null => true
  | Json.bool a, Json.bool b => a == b
  | Json.num a, Json.num b => a == b
  | Json.str a, Json.str b => a == b
  | Json.arr a, Json.arr b => pyEqArr a b
  | Json.obj a, Json.obj b => pyEqObjL a b && (b.all fun kv => (lookupJ kv.1 a).isSome)
  | _, _ => false

def pyEqArr : List Json → List Json → Bool
  | [], [] => true
  | x :: xs, y :: ys => pyEq x y && pyEqArr xs ys
  | _, _ => false

def pyEqObjL : List (String × Json) → List (String × Json) → Bool
  | [], _ => true
  | (k, v) :: rest, b =>
    (match lookupJ k b with
     | some w => pyEq v w
     | none => false) && pyEqObjL rest b

end

/-- Python `==` on two dicts. -/
def pyEqObj (a b : List (String × Json)) : Bool :=
  pyEq (Json.obj a) (Json.obj b)

theorem lookupJ_some_mem {k : String} :
    ∀ {l : List (String × Json)} {v : Json}, lookupJ k l = some v → k ∈ keysOf l := by
  intro l
  induction l with
  | nil => intro v h; simp [lookupJ] at h
  | cons hd tl ih =>
    intro v h
    obtain ⟨k', w⟩ := hd
    simp only [lookupJ] at h
    by_cases hk : k' = k
    · subst hk; simp [keysOf]
    · simp [hk] at h
      have := ih h
      simp [keysOf] at this ⊢
      exact Or.inr this

theorem mem_keys_lookupJ {k : String} :
    ∀ {l : List (String × Json)}, k ∈ keysOf l → ∃ v, lookupJ k l = some v := by
  intro l
  induction l with
  | nil => intro h; simp [keysOf] at h
  | cons hd tl ih =>
    intro h
    obtain ⟨k', w⟩ := hd
    by_cases hk : k' = k
    · subst hk; exact ⟨w, by simp [lookupJ]⟩
    · simp [keysOf, hk, Ne.symm hk] at h
      obtain ⟨v, hv⟩ := ih (by simp [keysOf, h])
      exact ⟨v, by simp [lookupJ, hk, hv]⟩

theorem lookupJ_map_keys (f : String → Json) :
    ∀ (ks : List String) (k : String),
      lookupJ k (ks.map fun x => (x, f x)) = if k ∈ ks then some (f k) else none := by
  intro ks
  induction ks with
  | nil => intro k; simp [lookupJ]
  | cons k' ks ih =>
    intro k
    simp only [List.map_cons, lookupJ]
    by_cases hk : k' = k
    · subst hk; simp
    · simp [hk, Ne.symm hk, ih]

theorem mem_unionKeys {k : String} {l r : List String} :
    k ∈ unionKeys l r ↔ k ∈ l ∨ k ∈ r := by
  simp only [unionKeys, List.mem_append, List.mem_filter]
  constructor
  · rintro (h | ⟨h, _⟩)
    · exact Or.inl h
    · exact Or.inr h
  · rintro (h | h)
    · exact Or.inl h
    · by_cases hl : k ∈ l
      · exact Or.inl hl
      · refine Or.inr ⟨h, ?_⟩
        simp [List.contains, List.elem_iff, hl]

theorem unionKeys_self (l : List String) : unionKeys l l = l := by
  simp only [unionKeys, List.append_right_eq_self]
  rw [List.filter_eq_nil]
  intro a ha
  simp [List.contains, List.elem_iff, ha]

/-- Lookup in a merged object: every key of either side is present, bound
to the per-key merge value. -/
theorem lookupJ_deep_merge (l r : List (String × Json)) (k : String) :
    lookupJ k (deep_merge l r) =
      if k ∈ unionKeys (keysOf l) (keysOf r) then some (mergeVal l r k) else none := by
  rw [deep_merge, deepMergeKeys_eq_map, lookupJ_map_keys]

/-- A value stored in a well-formed object is itself well-formed. -/
theorem jsonWfObj_lookup :
    ∀ {kvs : List (String × Json)} {k : String} {v : Json},
      jsonWfObj kvs = true → lookupJ k kvs = some v → JsonWf v = true := by
  intro kvs
  induction kvs with
  | nil => intro k v _ h; simp [lookupJ] at h
  | cons hd tl ih =>
    intro k v hwf h
    obtain ⟨k', w⟩ := hd
    simp only [jsonWfObj, Bool.and_eq_true] at hwf
    simp only [lookupJ] at h
    by_cases hk : k' = k
    · simp [hk] at h
      subst h
      exact hwf.1
    · simp [hk] at h
      exact ih hwf.2 h

/-- Rebuilding a duplicate-free dict from its key list and a function that
agrees with its lookups gives back the dict. -/
theorem map_keys_reconstruct (f : String → Json) :
    ∀ (kvs : List (String × Json)), nodupKeys kvs = true →
      (∀ k v, lookupJ k kvs = some v → f k = v) →
      (keysOf kvs).map (fun k => (k, f k)) = kvs := by
  intro kvs
  induction kvs with
  | nil => intro _ _; simp [keysOf]
  | cons hd tl ih =>
    intro hnd hf
    obtain ⟨k', w⟩ := hd
    simp only [nodupKeys, Bool.and_eq_true, Option.isNone_iff_eq_none] at hnd
    simp only [keysOf, List.map_cons, List.cons.injEq]
    refine ⟨?_, ?_⟩
    · have : f k' = w := hf k' w (by simp [lookupJ])
      simp [this]
    · refine ih hnd.2 ?_
      intro k v hv
      refine hf k v ?_
      have hk : k' ≠ k := by
        intro he
        subst he
        rw [hnd.1] at hv
        exact Option.noConfusion hv
      simp [lookupJ, hk, hv]

/-- Idempotence `deep_merge x x = x` for a duplicate-free `x`, by strong induction on
the size of `x`. -/
theorem deep_merge_self_aux :
    ∀ (n : Nat) (x : List (String × Json)), sizeOf x ≤ n →
      JsonWf (Json.obj x) = true → deep_merge x x = x := by
  intro n
  induction n with
  | zero =>
    intro x hx _
    cases x with
    | nil => simp [deep_merge, unionKeys, keysOf, deepMergeKeys]
    | cons hd tl => simp at hx
  | succ n ih =>
    intro x hx hwf
    simp only [JsonWf, Bool.and_eq_true] at hwf
    rw [deep_merge, unionKeys_self, deepMergeKeys_eq_map]
    refine map_keys_reconstruct _ x hwf.1 ?_
    intro k v hv
    rw [mergeVal, hv]
    cases v with
    | obj ro =>
      simp only
      have hro : JsonWf (Json.obj ro) = true := jsonWfObj_lookup hwf.2 hv
      have hsz : sizeOf (Json.obj ro) < sizeOf x := lookupJ_sizeOf k x _ hv
      have : sizeOf ro ≤ n := by simp at hsz; omega
      rw [ih ro this hro]
    | null => simp [falsy]
    | bool b => cases b <;> simp [falsy]
    | num m => by_cases hm : m = 0 <;> simp [falsy, hm]
    | str s => by_cases hs : s.isEmpty <;> simp [falsy, hs]
    | arr xs => cases xs <;> simp [falsy]

/-- C6: `deep_merge` is idempotent: for every JSON object `x` (well-formed,
i.e. duplicate-free, as every Python dict is), `deep_merge x x = x`. -/
theorem deep_merge_idempotent (x : List (String × Json))
    (h : JsonWf (Json.obj x) = true) : deep_merge x x = x :=
  deep_merge_self_aux (sizeOf x) x (Nat.le_refl _) h

theorem deep_merge_idempotent_witness :
    JsonWf (Json.obj [("a", Json.num 1), ("b", Json.obj [("c", Json.bool true)])]) = true ∧
    deep_merge [("a", Json.num 1), ("b", Json.obj [("c", Json.bool true)])]
      [("a", Json.num 1), ("b", Json.obj [("c", Json.bool true)])] =
      [("a", Json.num 1), ("b", Json.obj [("c", Json.bool true)])] :=
  have hwf : JsonWf (Json.obj [("a", Json.num 1), ("b", Json.obj [("c", Json.bool true)])]) = true := by
    simp [JsonWf, jsonWfObj, jsonWfArr, nodupKeys, lookupJ]
  ⟨hwf, deep_merge_idempotent _ hwf⟩

/-- C5 counterexample: at a key absent on the left whose right value is the
falsy non-dict `False`, `deep_merge` binds the key to `None` (the result of
`left.get(key)`), not to the falsy right value. -/
theorem deep_merge_falsy_right_cex :
    lookupJ "a" (deep_merge [] [("a", Json.bool false)]) = some Json.null ∧
    Json.null ≠ Json.bool false := by
  refine ⟨?_, fun h => Json.noConfusion h⟩
  rw [lookupJ_deep_merge]
  have hm : ("a" : String) ∈ unionKeys (keysOf []) (keysOf [("a", Json.bool false)]) := by
    simp [unionKeys, keysOf]
  rw [if_pos hm]
  unfold mergeVal
  simp [lookupJ, falsy]

/-- C5 (amended): for every key whose right value is falsy and not a dict,
the merged binding is the left value when the left key is present, and
`None` when the left key is absent; the falsy right value itself is never
taken (it coincides with the result only when it is `None`). -/
theorem deep_merge_falsy_right (left right : List (String × Json)) (k : String) (rv : Json)
    (hr : lookupJ k right = some rv) (hf : falsy rv = true)
    (hno : ∀ ro, rv ≠ Json.obj ro) :
    lookupJ k (deep_merge left right) = some ((lookupJ k left).getD Json.null) := by
  rw [lookupJ_deep_merge]
  have hm : k ∈ unionKeys (keysOf left) (keysOf right) :=
    mem_unionKeys.2 (Or.inr (lookupJ_some_mem hr))
  rw [if_pos hm]
  unfold mergeVal
  rw [hr]
  cases rv with
  | obj ro => exact absurd rfl (hno ro)
  | null => simp [falsy]
  | bool b => simp [falsy] at hf; simp [falsy, hf]
  | num n => simp [falsy] at hf; simp [falsy, hf]
  | str s => simp [falsy] at hf; simp [falsy, hf]
  | arr xs => simp [falsy] at hf; simp [falsy, hf]

theorem deep_merge_falsy_right_witness :
    lookupJ "a" [("a", Json.bool false)] = some (Json.bool false) ∧
    falsy (Json.bool false) = true ∧
    lookupJ "a" (deep_merge [("a", Json.num 7)] [("a", Json.bool false)]) = some (Json.num 7) := by
  refine ⟨by simp [lookupJ], by simp [falsy], ?_⟩
  have h := deep_merge_falsy_right [("a", Json.num 7)] [("a", Json.bool false)] "a"
    (Json.bool false) (by simp [lookupJ]) (by simp [falsy]) (fun ro hro => Json.noConfusion hro)
  simpa [lookupJ] using h

/-- Generic association-list lookup (Python dict get) for non-JSON values. -/
def lookupA {α : Type} (k : String) : List (String × α) → Option α
  | [] => none
  | (k', v) :: rest => if k' = k then some v else lookupA k rest

/-- Associative update: replace the binding of `k` in place, append when
absent (Python dict item assignment). -/
def setA {α : Type} (k : String) (v : α) : List (String × α) → List (String × α)
  | [] => [(k, v)]
  | (k', v') :: rest => if k' = k then (k, v) :: rest else (k', v') :: setA k v rest

/-- Entity `ConfigEntity(id, config, revision)` — the spec's Config Entity
`(id, body: json, revision)`. -/
structure ConfigEntity where
  id : String
  config : List (String × Json)
  revision : Option String

/-- A worker task as submitted to the worker task queue: id, task name,
attributes (used for worker matching), json payload (`data`), timeout. -/
structure WorkerTask where
  id : String
  name : String
  attrs : List (String × String)
  data : List (String × Json)
  timeoutSeconds : Nat

/-- A document held by the entity store: the store's revision plus the
config body. -/
structure StoredCfg where
  rev : String
  config : List (String × Json)

/-- The observable state threaded through the config handler: the configs
collection, the config-validation collection (id to external_validation),
the events emitted on the message bus, the worker tasks submitted to the
queue, and two counters for fresh revisions / task ids. -/
structure CHState where
  configs : List (String × StoredCfg)
  validations : List (String × Bool)
  events : List (String × List (String × Json))
  tasks : List WorkerTask
  nextRev : Nat
  nextTaskId : Nat

/-- Errors surfaced by the config handler. -/
inductive CfgError where
  | attributeError (msg : String)
  | validationError (msg : String)
  | optimisticLockingFailed (key : String)
  | dbError (code : Nat)

/-- The environment the handler runs in: the config model (per top-level
key, an optional `check_valid` that may coerce or raise), and the external
validator (outcome of the worker-task future for a submitted task). -/
structure CfgEnv where
  model : String → Option (Json → Except String Json)
  extValidate : WorkerTask → Except String Unit

/-- Errors of the underlying Arango driver. -/
inductive ArangoErr where
  | documentRevisionError
  | documentUpdateError (code : Nat)

def newRev (st : CHState) : String := "rev-" ++ toString st.nextRev

def writeCfg (st : CHState) (key : String) (doc : StoredCfg) : CHState :=
  { st with configs := setA key doc st.configs, nextRev := st.nextRev + 1 }

/-- Modelled from the spec: the document store consumed by
`ArangoEntityDb` (async_arangodb.py is not among the sources).  Spec,
external interfaces: documents carry `_key` and `_rev`; `update` on a
stale `_rev` raises a revision error; `update` on a missing document
raises a not-found error (python-arango error code 1202). -/
def arango_update (st : CHState) (t : ConfigEntity) : Except ArangoErr (StoredCfg × CHState) :=
  match lookupA t.id st.configs with
  | none => Except.error (ArangoErr.documentUpdateError 1202)
  | some stored =>
    match t.revision with
    | some r =>
      if r = stored.rev then
        let doc : StoredCfg := ⟨newRev st, t.config⟩
        Except.ok (doc, writeCfg st t.id doc)
      else Except.error ArangoErr.documentRevisionError
    | none =>
      let doc : StoredCfg := ⟨newRev st, t.config⟩
      Except.ok (doc, writeCfg st t.id doc)

/-- Modelled from the spec: `insert` of a document that is not present
always succeeds and assigns a fresh revision. -/
def arango_insert (st : CHState) (t : ConfigEntity) : StoredCfg × CHState :=
  let doc : StoredCfg := ⟨newRev st, t.config⟩
  (doc, writeCfg st t.id doc)

/-- The error dispatch of `ArangoEntityDb.update` (entitydb.py): a
`DocumentRevisionError` becomes `OptimisticLockingFailed(key)`; a
`DocumentUpdateError` with code 1202 (document not found) falls back to
`insert`; any other `DocumentUpdateError` is re-raised. -/
def entity_update_on_error (st : CHState) (t : ConfigEntity) (e : ArangoErr) :
    Except CfgError (ConfigEntity × CHState) :=
  match e with
  | ArangoErr.documentRevisionError =>
    Except.error (CfgError.optimisticLockingFailed t.id)
  | ArangoErr.documentUpdateError c =>
    if c = 1202 then
      let (doc, st') := arango_insert st t
      Except.ok ({ t with revision := some doc.rev }, st')
    else Except.error (CfgError.dbError c)

/-- Method `ArangoEntityDb.update` (entitydb.py): store the document, handle the
store's errors, and return the entity with the store's new revision. -/
def entity_update (st : CHState) (t : ConfigEntity) : Except CfgError (ConfigEntity × CHState) :=
  match arango_update st t with
  | Except.ok (doc, st') => Except.ok ({ t with revision := some doc.rev }, st')
  | Except.error e => entity_update_on_error st t e

/-- Read `cfg_db.get`: the stored entity, with the store's revision. -/
def cfg_db_get (st : CHState) (cfg_id : String) : Option ConfigEntity :=
  match lookupA cfg_id st.configs with
  | some doc => some ⟨cfg_id, doc.config, some doc.rev⟩
  | none => none

/-- One section of `coerce_and_check_model`: a key with a registered kind
is passed through `check_valid`; a raise becomes an `AttributeError`
naming the section; `coerced or value` keeps the original value when
`check_valid` returned a falsy result (such as `None`). -/
def coerce_section (env : CfgEnv) (k : String) (v : Json) : Except CfgError Json :=
  match env.model k with
  | some checkValid =>
    match checkValid v with
    | Except.error ex =>
      Except.error (CfgError.attributeError ("Error validating section " ++ k ++ ": " ++ ex))
    | Except.ok coerced => Except.ok (if falsy coerced then v else coerced)
  | none => Except.ok v

/-- The coercion loop of `coerce_and_check_model` over all top-level
sections, in insertion order. -/
def coerce_config (env : CfgEnv) : List (String × Json) → Except CfgError (List (String × Json))
  | [] => Except.ok []
  | (k, v) :: rest =>
    match coerce_section env k v with
    | Except.error e => Except.error e
    | Except.ok v' =>
      match coerce_config env rest with
      | Except.error e => Except.error e
      | Except.ok rest' => Except.ok ((k, v') :: rest')

/-- Modelled from the spec: `WorkerTaskName.validate_config`
(worker_task_queue.py is not among the sources); the spec names the
validation task `validate_config`. -/
def validate_config_name : String := "validate_config"

/-- The worker task built by `acknowledge_config_change`
(config_handler_service.py): name `validate_config`, attributes
`config_id = cfg_id`, payload with the task name under `task` and the
config under `config`, 30-second timeout. -/
def mk_validation_task (taskId cfg_id : String) (config : List (String × Json)) : WorkerTask :=
  { id := taskId
  , name := validate_config_name
  , attrs := [("config_id", cfg_id)]
  , data := [("task", Json.str validate_config_name), ("config", Json.obj config)]
  , timeoutSeconds := 30 }

/-- Method `acknowledge_config_change`: submit the validation task to the worker
task queue and await its future; a rejected future raises. -/
def acknowledge_config_change (env : CfgEnv) (st : CHState) (cfg_id : String)
    (config : List (String × Json)) : (Except CfgError Unit) × CHState :=
  let task := mk_validation_task ("task-" ++ toString st.nextTaskId) cfg_id config
  let st' := { st with tasks := st.tasks ++ [task], nextTaskId := st.nextTaskId + 1 }
  match env.extValidate task with
  | Except.ok _ => (Except.ok (), st')
  | Except.error reason => (Except.error (CfgError.validationError reason), st')

/-- Method `coerce_and_check_model` (config_handler_service.py): coerce each
section against the model (when `validate`), then, when a
`ConfigValidation` record with `external_validation` exists and
`validate` is set, run the external validation task. -/
def coerce_and_check_model (env : CfgEnv) (st : CHState) (cfg_id : String)
    (config : List (String × Json)) (validate : Bool) :
    (Except CfgError (List (String × Json))) × CHState :=
  match (if validate then coerce_config env config else Except.ok config) with
  | Except.error e => (Except.error e, st)
  | Except.ok finalConfig =>
    match lookupA cfg_id st.validations with
    | some ext =>
      if ext && validate then
        match acknowledge_config_change env st cfg_id finalConfig with
        | (Except.ok _, st') => (Except.ok finalConfig, st')
        | (Except.error e, st') => (Except.error e, st')
      else (Except.ok finalConfig, st)
    | none => (Except.ok finalConfig, st)

/-- Modelled from the spec: `CoreMessage.ConfigUpdated` (message_bus.py is
not among the sources); the spec names the event `ConfigUpdated`. -/
def config_updated_name : String := "ConfigUpdated"

def optStrJson : Option String → Json
  | some s => Json.str s
  | none => Json.null

/-- The `ConfigUpdated` event emitted after a write:
`dict(id=result.id, revision=result.revision)`. -/
def configUpdatedEvent (e : ConfigEntity) : String × List (String × Json) :=
  (config_updated_name, [("id", Json.str e.id), ("revision", optStrJson e.revision)])

/-- The write-and-emit tail shared by `put_config` and `patch_config`:
`cfg_db.update(entity)` followed by emitting `ConfigUpdated`. -/
def put_write (st : CHState) (ent : ConfigEntity) : (Except CfgError ConfigEntity) × CHState :=
  match entity_update st ent with
  | Except.error e => (Except.error e, st)
  | Except.ok (result, st') =>
    (Except.ok result, { st' with events := st'.events ++ [configUpdatedEvent result] })

/-- Method `put_config` (config_handler_service.py). -/
def put_config (env : CfgEnv) (st : CHState) (cfg : ConfigEntity) (validate : Bool) :
    (Except CfgError ConfigEntity) × CHState :=
  match coerce_and_check_model env st cfg.id cfg.config validate with
  | (Except.error e, st') => (Except.error e, st')
  | (Except.ok coerced, st') =>
    match cfg_db_get st' cfg.id with
    | some existing =>
      if pyEqObj existing.config cfg.config then (Except.ok existing, st')
      else put_write st' ⟨cfg.id, coerced, cfg.revision⟩
    | none => put_write st' ⟨cfg.id, coerced, cfg.revision⟩

/-- Python's `dict(left, **right)` shallow merge used by `patch_config`
(`\x7b**current_config, **cfg.config\x7d`): the keys of `left` in order,
each overridden by `right` when present there, followed by the keys only
in `right`. -/
def shallowMerge (l r : List (String × Json)) : List (String × Json) :=
  l.map (fun kv => (kv.1, (lookupJ kv.1 r).getD kv.2)) ++
    r.filter (fun kv => (lookupJ kv.1 l).isNone)

/-- The stored config of an id, the empty dict when absent
(`current.config if current else \x7b\x7d`). -/
def current_config_of (st : CHState) (cfg_id : String) : List (String × Json) :=
  match cfg_db_get st cfg_id with
  | some c => c.config
  | none => []

/-- The stored revision of an id (`current.revision if current else None`). -/
def current_rev_of (st : CHState) (cfg_id : String) : Option String :=
  match cfg_db_get st cfg_id with
  | some c => c.revision
  | none => none

/-- Method `patch_config` (config_handler_service.py): shallow-merge the patch
over the stored config, coerce and check, write with the stored revision,
emit `ConfigUpdated`. -/
def patch_config (env : CfgEnv) (st : CHState) (cfg : ConfigEntity) :
    (Except CfgError ConfigEntity) × CHState :=
  match coerce_and_check_model env st cfg.id
      (shallowMerge (current_config_of st cfg.id) cfg.config) true with
  | (Except.error e, st') => (Except.error e, st')
  | (Except.ok coerced, st') =>
    put_write st' ⟨cfg.id, coerced, current_rev_of st cfg.id⟩

theorem acknowledge_state (env : CfgEnv) (st : CHState) (cfg_id : String)
    (config : List (String × Json)) :
    (acknowledge_config_change env st cfg_id config).2 =
      { st with
        tasks := st.tasks ++ [mk_validation_task ("task-" ++ toString st.nextTaskId) cfg_id config],
        nextTaskId := st.nextTaskId + 1 } := by
  unfold acknowledge_config_change
  cases h : env.extValidate (mk_validation_task ("task-" ++ toString st.nextTaskId) cfg_id config) <;>
    simp [h]

/-- Lemma: `coerce_and_check_model` only reads the store: it leaves `configs` and
`events` untouched (at most it submits a worker task). -/
theorem coerce_and_check_model_state (env : CfgEnv) (st : CHState) (cfg_id : String)
    (config : List (String × Json)) (validate : Bool) :
    (coerce_and_check_model env st cfg_id config validate).2.configs = st.configs ∧
    (coerce_and_check_model env st cfg_id config validate).2.events = st.events := by
  unfold coerce_and_check_model
  cases hv : (if validate then coerce_config env config else Except.ok config) with
  | error e => simp
  | ok fc =>
    cases hl : lookupA cfg_id st.validations with
    | none => simp
    | some ext =>
      by_cases hx : ext && validate
      · simp only [hx, if_true]
        have hs := acknowledge_state env st cfg_id fc
        cases ha : acknowledge_config_change env st cfg_id fc with
        | mk res st' =>
          have hst : st' = { st with
              tasks := st.tasks ++ [mk_validation_task ("task-" ++ toString st.nextTaskId) cfg_id fc],
              nextTaskId := st.nextTaskId + 1 } := by
            rw [ha] at hs; exact hs
          cases res <;> simp [hst]
      · simp [hx]

/-- C2: if validation fails — coercion of a section raises, or the external
validator rejects — then `put_config` (and `patch_config`) surfaces the
error, the stored configs are unchanged, and no `ConfigUpdated` event is
emitted on the bus. -/
theorem config_validation_error_no_write (env : CfgEnv) (st : CHState) (cfg : ConfigEntity)
    (e : CfgError) (st1 : CHState) :
    (coerce_and_check_model env st cfg.id cfg.config true = (Except.error e, st1) →
      put_config env st cfg true = (Except.error e, st1) ∧
      st1.configs = st.configs ∧ st1.events = st.events) ∧
    (coerce_and_check_model env st cfg.id
        (shallowMerge (current_config_of st cfg.id) cfg.config) true = (Except.error e, st1) →
      patch_config env st cfg = (Except.error e, st1) ∧
      st1.configs = st.configs ∧ st1.events = st.events) := by
  constructor
  · intro h
    have hs := coerce_and_check_model_state env st cfg.id cfg.config true
    rw [h] at hs
    refine ⟨?_, hs.1, hs.2⟩
    unfold put_config
    rw [h]
  · intro h
    have hs := coerce_and_check_model_state env st cfg.id
      (shallowMerge (current_config_of st cfg.id) cfg.config) true
    rw [h] at hs
    refine ⟨?_, hs.1, hs.2⟩
    unfold patch_config
    rw [h]

/-- A config model whose only kind, `section1`, always rejects. -/
def envReject : CfgEnv :=
  { model := fun k => if k = "section1" then some (fun _ => Except.error "bad value") else none
  , extValidate := fun _ => Except.ok () }

/-- The empty handler state. -/
def st0 : CHState :=
  { configs := [], validations := [], events := [], tasks := [], nextRev := 0, nextTaskId := 0 }

def cfgBad : ConfigEntity := ⟨"c1", [("section1", Json.num 1)], none⟩

theorem config_validation_error_no_write_witness :
    put_config envReject st0 cfgBad true =
      (Except.error (CfgError.attributeError "Error validating section section1: bad value"), st0) ∧
    patch_config envReject st0 cfgBad =
      (Except.error (CfgError.attributeError "Error validating section section1: bad value"), st0) ∧
    st0.configs = st0.configs ∧ st0.events = st0.events :=
  have h := config_validation_error_no_write envReject st0 cfgBad
    (CfgError.attributeError "Error validating section section1: bad value") st0
  ⟨(h.1 rfl).1, (h.2 rfl).1, rfl, rfl⟩

theorem lookupA_setA {α : Type} (k : String) (v : α) :
    ∀ l : List (String × α), lookupA k (setA k v l) = some v := by
  intro l
  induction l with
  | nil => simp [setA, lookupA]
  | cons hd tl ih =>
    obtain ⟨k', v'⟩ := hd
    by_cases hk : k' = k
    · simp [setA, hk, lookupA]
    · simp [setA, hk, lookupA, ih]


/-- A successful `entity_update` returns the entity with a fresh revision,
stores exactly the submitted config under the entity's key, and leaves the
event log and the task log untouched. -/
theorem entity_update_ok (st : CHState) (t : ConfigEntity) (res : ConfigEntity) (st2 : CHState)
    (h : entity_update st t = Except.ok (res, st2)) :
    res.id = t.id ∧ res.config = t.config ∧ res.revision = some (newRev st) ∧
    lookupA t.id st2.configs = some ⟨newRev st, t.config⟩ ∧
    st2.events = st.events ∧ st2.tasks = st.tasks := by
  have hwr : ∀ hok : entity_update st t =
      Except.ok ({ t with revision := some (newRev st) }, writeCfg st t.id ⟨newRev st, t.config⟩),
      res.id = t.id ∧ res.config = t.config ∧ res.revision = some (newRev st) ∧
      lookupA t.id st2.configs = some ⟨newRev st, t.config⟩ ∧
      st2.events = st.events ∧ st2.tasks = st.tasks := by
    intro hok
    rw [hok] at h
    simp only [Except.ok.injEq, Prod.mk.injEq] at h
    obtain ⟨hres, hst⟩ := h
    subst hres
    subst hst
    exact ⟨rfl, rfl, rfl, by simp [writeCfg, lookupA_setA], rfl, rfl⟩
  cases hl : lookupA t.id st.configs with
  | none =>
    refine hwr ?_
    unfold entity_update arango_update
    rw [hl]
    simp [entity_update_on_error, arango_insert]
  | some stored =>
    cases hr : t.revision with
    | none =>
      refine hwr ?_
      unfold entity_update arango_update
      rw [hl, hr]
    | some r =>
      by_cases hrr : r = stored.rev
      · refine hwr ?_
        unfold entity_update arango_update
        rw [hl, hr]
        simp [hrr]
      · exfalso
        have he : entity_update st t = Except.error (CfgError.optimisticLockingFailed t.id) := by
          unfold entity_update arango_update
          rw [hl, hr]
          simp [hrr, entity_update_on_error]
        rw [he] at h
        exact Except.noConfusion h

/-- C7: a stale revision raises `OptimisticLockingFailed`; an update of a
missing document falls back to an insert and succeeds; any other
document-update error code is re-raised. -/
theorem entity_update_error_policy (st : CHState) (t : ConfigEntity) (stored : StoredCfg)
    (r : String) (c : Nat) :
    (lookupA t.id st.configs = some stored → t.revision = some r → r ≠ stored.rev →
      entity_update st t = Except.error (CfgError.optimisticLockingFailed t.id)) ∧
    (lookupA t.id st.configs = none →
      entity_update st t =
        Except.ok ({ t with revision := some (newRev st) },
          writeCfg st t.id ⟨newRev st, t.config⟩)) ∧
    (c ≠ 1202 →
      entity_update_on_error st t (ArangoErr.documentUpdateError c) =
        Except.error (CfgError.dbError c)) := by
  refine ⟨?_, ?_, ?_⟩
  · intro hl hr hne
    unfold entity_update arango_update
    rw [hl, hr]
    simp [hne, entity_update_on_error]
  · intro hl
    unfold entity_update arango_update
    rw [hl]
    simp [entity_update_on_error, arango_insert]
  · intro hc
    simp [entity_update_on_error, hc]

def stOne : CHState :=
  { configs := [("c1", ⟨"r0", [("a", Json.num 1)]⟩)]
  , validations := [], events := [], tasks := [], nextRev := 5, nextTaskId := 0 }

theorem entity_update_error_policy_witness :
    entity_update stOne ⟨"c1", [], some "stale"⟩ =
      Except.error (CfgError.optimisticLockingFailed "c1") ∧
    entity_update stOne ⟨"c2", [("b", Json.num 2)], none⟩ =
      Except.ok (⟨"c2", [("b", Json.num 2)], some "rev-5"⟩,
        writeCfg stOne "c2" ⟨"rev-5", [("b", Json.num 2)]⟩) ∧
    entity_update_on_error stOne ⟨"c1", [], none⟩ (ArangoErr.documentUpdateError 1200) =
      Except.error (CfgError.dbError 1200) :=
  have h1 := (entity_update_error_policy stOne ⟨"c1", [], some "stale"⟩ ⟨"r0", [("a", Json.num 1)]⟩
    "stale" 1200).1 rfl rfl (by decide)
  have h2 := (entity_update_error_policy stOne ⟨"c2", [("b", Json.num 2)], none⟩
    ⟨"r0", [("a", Json.num 1)]⟩ "stale" 1200).2.1 rfl
  have h3 := (entity_update_error_policy stOne ⟨"c1", [], none⟩ ⟨"r0", [("a", Json.num 1)]⟩
    "stale" 1200).2.2 (by decide)
  ⟨h1, h2, h3⟩

/-- C3: when the stored config equals the submitted config (Python `==`),
`put_config` is a no-op returning the existing entity, with no write and
no event; otherwise the coerced config is written with the caller's
optimistic revision and exactly one `ConfigUpdated` event carrying the id
and new revision is emitted. -/
theorem put_config_noop_or_write (env : CfgEnv) (st : CHState) (cfg : ConfigEntity)
    (coerced : List (String × Json)) (st1 : CHState)
    (hc : coerce_and_check_model env st cfg.id cfg.config true = (Except.ok coerced, st1)) :
    (∀ ex, cfg_db_get st1 cfg.id = some ex → pyEqObj ex.config cfg.config = true →
      put_config env st cfg true = (Except.ok ex, st1) ∧
      st1.configs = st.configs ∧ st1.events = st.events) ∧
    (∀ result st2,
      (∀ ex, cfg_db_get st1 cfg.id = some ex → pyEqObj ex.config cfg.config = false) →
      entity_update st1 ⟨cfg.id, coerced, cfg.revision⟩ = Except.ok (result, st2) →
      put_config env st cfg true =
        (Except.ok result, { st2 with events := st2.events ++ [configUpdatedEvent result] }) ∧
      result.id = cfg.id ∧ result.config = coerced ∧
      (put_config env st cfg true).2.events = st.events ++ [configUpdatedEvent result]) := by
  have hs := coerce_and_check_model_state env st cfg.id cfg.config true
  rw [hc] at hs
  constructor
  · intro ex hex heq
    refine ⟨?_, hs.1, hs.2⟩
    unfold put_config
    rw [hc]
    simp only
    rw [hex]
    simp [heq]
  · intro result st2 hne hu
    have hok := entity_update_ok st1 ⟨cfg.id, coerced, cfg.revision⟩ result st2 hu
    have hput : put_config env st cfg true =
        (Except.ok result, { st2 with events := st2.events ++ [configUpdatedEvent result] }) := by
      unfold put_config
      rw [hc]
      simp only
      cases hex2 : cfg_db_get st1 cfg.id with
      | none => simp [put_write, hu]
      | some ex =>
        have hf := hne ex hex2
        simp [hf, put_write, hu]
    refine ⟨hput, hok.1, hok.2.1, ?_⟩
    rw [hput]
    have hs1 : st1.events = st.events := hs.2
    have he2 : st2.events = st1.events := hok.2.2.2.2.1
    simp [he2, hs1]

/-- A trivial environment: no registered kinds, external validation
always passes. -/
def envId : CfgEnv :=
  { model := fun _ => none, extValidate := fun _ => Except.ok () }

def stK : CHState :=
  { configs := [("c1", ⟨"r0", [("k", Json.num 1)]⟩)]
  , validations := [], events := [], tasks := [], nextRev := 0, nextTaskId := 0 }

theorem put_config_noop_or_write_witness :
    put_config envId stK ⟨"c1", [("k", Json.num 1)], none⟩ true =
      (Except.ok ⟨"c1", [("k", Json.num 1)], some "r0"⟩, stK) ∧
    put_config envId stK ⟨"c2", [("k2", Json.num 2)], none⟩ true =
      (Except.ok ⟨"c2", [("k2", Json.num 2)], some "rev-0"⟩,
       { writeCfg stK "c2" ⟨"rev-0", [("k2", Json.num 2)]⟩ with
         events := [configUpdatedEvent ⟨"c2", [("k2", Json.num 2)], some "rev-0"⟩] }) :=
  have hnoop := ((put_config_noop_or_write envId stK ⟨"c1", [("k", Json.num 1)], none⟩
      [("k", Json.num 1)] stK rfl).1
    ⟨"c1", [("k", Json.num 1)], some "r0"⟩ rfl rfl).1
  have hwrite := ((put_config_noop_or_write envId stK ⟨"c2", [("k2", Json.num 2)], none⟩
      [("k2", Json.num 2)] stK rfl).2
    ⟨"c2", [("k2", Json.num 2)], some "rev-0"⟩ (writeCfg stK "c2" ⟨"rev-0", [("k2", Json.num 2)]⟩)
    (fun ex hex => Option.noConfusion hex) rfl).1
  ⟨hnoop, hwrite⟩

theorem lookupJ_append (k : String) :
    ∀ a b : List (String × Json),
      lookupJ k (a ++ b) =
        match lookupJ k a with
        | some v => some v
        | none => lookupJ k b := by
  intro a b
  induction a with
  | nil => simp [lookupJ]
  | cons hd tl ih =>
    obtain ⟨k', v⟩ := hd
    by_cases hk : k' = k
    · simp [lookupJ, hk]
    · simp [lookupJ, hk, ih]

theorem lookupJ_map_override (k : String) (r : List (String × Json)) :
    ∀ l : List (String × Json),
      lookupJ k (l.map fun kv => (kv.1, (lookupJ kv.1 r).getD kv.2)) =
        (lookupJ k l).map fun v => (lookupJ k r).getD v := by
  intro l
  induction l with
  | nil => simp [lookupJ]
  | cons hd tl ih =>
    obtain ⟨k', v⟩ := hd
    by_cases hk : k' = k
    · subst hk
      simp [lookupJ]
    · simp [lookupJ, hk, ih]

theorem lookupJ_filter_key (k : String) (p : String → Bool) :
    ∀ l : List (String × Json),
      lookupJ k (l.filter fun kv => p kv.1) = if p k then lookupJ k l else none := by
  intro l
  induction l with
  | nil => simp [lookupJ]
  | cons hd tl ih =>
    obtain ⟨k', v⟩ := hd
    by_cases hk : k' = k
    · subst hk
      by_cases hp : p k'
      · simp [List.filter, hp, lookupJ]
      · simp [List.filter, hp, lookupJ, ih]
    · by_cases hp : p k'
      · simp [List.filter, hp, lookupJ, hk, ih]
      · simp [List.filter, hp, lookupJ, hk, ih]

/-- Lookup in Python's shallow `dict(left, **right)` union: a key present
in `right` is bound to `right`'s value wholesale; any other key keeps the
`left` binding. -/
theorem lookupJ_shallowMerge (l r : List (String × Json)) (k : String) :
    lookupJ k (shallowMerge l r) =
      match lookupJ k r with
      | some rv => some rv
      | none => lookupJ k l := by
  unfold shallowMerge
  rw [lookupJ_append, lookupJ_map_override]
  have hfilter := lookupJ_filter_key k (fun key => (lookupJ key l).isNone) r
  simp only at hfilter
  rw [hfilter]
  cases hl : lookupJ k l <;> cases hr : lookupJ k r <;> simp [hl, hr]

def stDeep : CHState :=
  { configs := [("c1", ⟨"r0", [("a", Json.obj [("x", Json.num 1), ("y", Json.num 2)])]⟩)]
  , validations := [], events := [], tasks := [], nextRev := 0, nextTaskId := 0 }

def cfgPatch : ConfigEntity := ⟨"c1", [("a", Json.obj [("x", Json.num 3)])], none⟩

/-- C1 counterexample: `patch_config` does not deep-merge.  With stored
config `a = (x: 1, y: 2)` and patch `a = (x: 3)`, the validated and
written config binds `a` to `(x: 3)` — the nested key `y` is dropped —
whereas the deep merge of the two `a` values keeps `y = 2`. -/
theorem patch_config_not_deep_merge_cex :
    (patch_config envId stDeep cfgPatch).1 =
      Except.ok ⟨"c1", [("a", Json.obj [("x", Json.num 3)])], some "rev-0"⟩ ∧
    lookupA "c1" (patch_config envId stDeep cfgPatch).2.configs =
      some ⟨"rev-0", [("a", Json.obj [("x", Json.num 3)])]⟩ ∧
    lookupJ "y" [("x", Json.num 3)] = none ∧
    lookupJ "y" (deep_merge [("x", Json.num 1), ("y", Json.num 2)] [("x", Json.num 3)]) =
      some (Json.num 2) := by
  refine ⟨rfl, rfl, rfl, ?_⟩
  have hm : ("y" : String) ∈
      unionKeys (keysOf [("x", Json.num 1), ("y", Json.num 2)]) (keysOf [("x", Json.num 3)]) := by
    decide
  rw [lookupJ_deep_merge, if_pos hm]
  rfl

/-- C1 (amended): `patch_config` merges the patch into the stored config
with Python's shallow dict union: every top-level key of the patch
replaces the stored value wholesale (nested dicts are not merged
recursively, and falsy patch values replace too); keys absent from the
patch keep the stored value; the merged result is what is validated and
written, and one `ConfigUpdated` event is emitted. -/
theorem patch_config_shallow_merge (env : CfgEnv) (st : CHState) (cfg : ConfigEntity)
    (coerced : List (String × Json)) (st1 : CHState) (result : ConfigEntity) (st2 : CHState)
    (hc : coerce_and_check_model env st cfg.id
        (shallowMerge (current_config_of st cfg.id) cfg.config) true = (Except.ok coerced, st1))
    (hu : entity_update st1 ⟨cfg.id, coerced, current_rev_of st cfg.id⟩ = Except.ok (result, st2)) :
    patch_config env st cfg =
      (Except.ok result, { st2 with events := st2.events ++ [configUpdatedEvent result] }) ∧
    result.config = coerced ∧
    (∀ k rv, lookupJ k cfg.config = some rv →
      lookupJ k (shallowMerge (current_config_of st cfg.id) cfg.config) = some rv) ∧
    (∀ k, lookupJ k cfg.config = none →
      lookupJ k (shallowMerge (current_config_of st cfg.id) cfg.config) =
        lookupJ k (current_config_of st cfg.id)) := by
  refine ⟨?_, (entity_update_ok _ _ _ _ hu).2.1, ?_, ?_⟩
  · unfold patch_config
    rw [hc]
    simp only
    unfold put_write
    rw [hu]
  · intro k rv hk
    rw [lookupJ_shallowMerge, hk]
  · intro k hk
    rw [lookupJ_shallowMerge, hk]

theorem patch_config_shallow_merge_witness :
    patch_config envId stDeep cfgPatch =
      (Except.ok ⟨"c1", [("a", Json.obj [("x", Json.num 3)])], some "rev-0"⟩,
       { writeCfg stDeep "c1" ⟨"rev-0", [("a", Json.obj [("x", Json.num 3)])]⟩ with
         events := [configUpdatedEvent ⟨"c1", [("a", Json.obj [("x", Json.num 3)])], some "rev-0"⟩] }) ∧
    lookupJ "a" (shallowMerge (current_config_of stDeep "c1") cfgPatch.config) =
      some (Json.obj [("x", Json.num 3)]) :=
  have h := patch_config_shallow_merge envId stDeep cfgPatch
    [("a", Json.obj [("x", Json.num 3)])] stDeep
    ⟨"c1", [("a", Json.obj [("x", Json.num 3)])], some "rev-0"⟩
    (writeCfg stDeep "c1" ⟨"rev-0", [("a", Json.obj [("x", Json.num 3)])]⟩) rfl rfl
  ⟨h.1, h.2.2.1 "a" (Json.obj [("x", Json.num 3)]) rfl⟩

def stVal : CHState :=
  { configs := [], validations := [("c1", true)], events := [], tasks := [], nextRev := 0
  , nextTaskId := 0 }

/-- C4 counterexample: for a put with external validation, the submitted
task's payload (`data`) has the keys `task` and `config` only — it does
not contain `config_id`; the config id travels in the task's attributes
instead. -/
theorem validate_task_payload_cex :
    (coerce_and_check_model envId stVal "c1" [("k", Json.num 5)] true).2.tasks =
      [mk_validation_task "task-0" "c1" [("k", Json.num 5)]] ∧
    lookupJ "config_id" (mk_validation_task "task-0" "c1" [("k", Json.num 5)]).data = none ∧
    keysOf (mk_validation_task "task-0" "c1" [("k", Json.num 5)]).data = ["task", "config"] ∧
    lookupA "config_id" (mk_validation_task "task-0" "c1" [("k", Json.num 5)]).attrs =
      some "c1" :=
  ⟨rfl, rfl, rfl, rfl⟩

/-- C4 (amended): for every put of a config whose id has a stored
`ConfigValidation` record with external validation (and validation not
disabled), exactly one `validate_config` worker task is submitted, whose
attributes are `config_id = id`, whose payload holds the task name under
`task` and the coerced config under `config`, and whose timeout is 30
seconds; the put waits for the task's future, and a worker rejection is
raised as the put's `ValidationError`. -/
theorem put_config_external_validation (env : CfgEnv) (st : CHState) (cfg : ConfigEntity)
    (coerced : List (String × Json))
    (hv : lookupA cfg.id st.validations = some true)
    (hc : coerce_config env cfg.config = Except.ok coerced) :
    (coerce_and_check_model env st cfg.id cfg.config true).2.tasks =
      st.tasks ++ [mk_validation_task ("task-" ++ toString st.nextTaskId) cfg.id coerced] ∧
    (mk_validation_task ("task-" ++ toString st.nextTaskId) cfg.id coerced).name =
      validate_config_name ∧
    (mk_validation_task ("task-" ++ toString st.nextTaskId) cfg.id coerced).attrs =
      [("config_id", cfg.id)] ∧
    (mk_validation_task ("task-" ++ toString st.nextTaskId) cfg.id coerced).data =
      [("task", Json.str validate_config_name), ("config", Json.obj coerced)] ∧
    (mk_validation_task ("task-" ++ toString st.nextTaskId) cfg.id coerced).timeoutSeconds = 30 ∧
    (∀ reason,
      env.extValidate (mk_validation_task ("task-" ++ toString st.nextTaskId) cfg.id coerced) =
        Except.error reason →
      put_config env st cfg true =
        (Except.error (CfgError.validationError reason),
         { st with
           tasks := st.tasks ++
             [mk_validation_task ("task-" ++ toString st.nextTaskId) cfg.id coerced],
           nextTaskId := st.nextTaskId + 1 })) := by
  have e1 : coerce_and_check_model env st cfg.id cfg.config true =
      match acknowledge_config_change env st cfg.id coerced with
      | (Except.ok _, st') => (Except.ok coerced, st')
      | (Except.error e, st') => (Except.error e, st') := by
    unfold coerce_and_check_model
    simp [hc, hv]
  refine ⟨?_, rfl, rfl, rfl, rfl, ?_⟩
  · rw [e1]
    have hs := acknowledge_state env st cfg.id coerced
    cases ha : acknowledge_config_change env st cfg.id coerced with
    | mk res st' =>
      rw [ha] at hs
      have hst : st' = { st with
          tasks := st.tasks ++
            [mk_validation_task ("task-" ++ toString st.nextTaskId) cfg.id coerced],
          nextTaskId := st.nextTaskId + 1 } := hs
      cases res <;> simp [hst]
  · intro reason hrej
    have ha : acknowledge_config_change env st cfg.id coerced =
        (Except.error (CfgError.validationError reason),
         { st with
           tasks := st.tasks ++
             [mk_validation_task ("task-" ++ toString st.nextTaskId) cfg.id coerced],
           nextTaskId := st.nextTaskId + 1 }) := by
      unfold acknowledge_config_change
      simp [hrej]
    unfold put_config
    rw [e1, ha]

/-- An environment whose external validator rejects every task. -/
def envExtReject : CfgEnv :=
  { model := fun _ => none, extValidate := fun _ => Except.error "bad value" }

theorem put_config_external_validation_witness :
    put_config envExtReject stVal ⟨"c1", [("k", Json.num 5)], none⟩ true =
      (Except.error (CfgError.validationError "bad value"),
       { stVal with
         tasks := [mk_validation_task "task-0" "c1" [("k", Json.num 5)]],
         nextTaskId := 1 }) :=
  (put_config_external_validation envExtReject stVal ⟨"c1", [("k", Json.num 5)], none⟩
    [("k", Json.num 5)] rfl rfl).2.2.2.2.2 "bad value" rfl

/-- The match test of `CoreConfigHandler.__handle_events`
(core_config_handler.py): `event.data.get("id") == ResotoCoreConfigId`. -/
def config_event_matches (coreId : String) (data : List (String × Json)) : Bool :=
  match lookupJ "id" data with
  | some (Json.str s) => s == coreId
  | _ => false

/-- One iteration of `__handle_events` on a received `ConfigUpdated`
event: invoke `exit_fn` when the event's id is the core-config id. -/
def handle_config_updated (coreId : String) (exitFn : Unit → Except String Unit)
    (data : List (String × Json)) : Except String Unit :=
  if config_event_matches coreId data then exitFn () else Except.ok ()

/-- Function `restart_service(reason)` (util.py): raise `RestartService(reason)`. -/
def restart_service (reason : String) : Except String Unit := Except.error reason

/-- The default `exit_fn` of `CoreConfigHandler`:
`partial(restart_service, "resotocore config changed.")`. -/
def default_exit_fn : Unit → Except String Unit :=
  fun _ => restart_service "resotocore config changed."

/-- Outcome of one `run_process` invocation. -/
inductive ProcOutcome where
  | finished
  | restartRequested (reason : String)
  | fatal (msg : String)

/-- The supervisor loop of `run` (resotocore/__main__.py): call
`run_process`; a `RestartService` exception is caught and the loop
re-enters `run_process`; any other outcome leaves the loop. -/
def run_supervisor : List ProcOutcome → Option ProcOutcome
  | [] => none
  | ProcOutcome.restartRequested _ :: rest => run_supervisor rest
  | o :: _ => some o

/-- C8: a `ConfigUpdated` event whose id equals the core-config id makes
the sub-handler invoke `exit_fn` (by default raising `RestartService`);
an event for any other id never invokes `exit_fn`; and the outer
supervisor answers a `RestartService` by re-entering `run_process`. -/
theorem core_config_restart (coreId : String) (exitFn : Unit → Except String Unit)
    (data : List (String × Json)) (reason : String) (rest : List ProcOutcome) :
    (lookupJ "id" data = some (Json.str coreId) →
      handle_config_updated coreId exitFn data = exitFn ()) ∧
    (lookupJ "id" data ≠ some (Json.str coreId) →
      handle_config_updated coreId exitFn data = Except.ok ()) ∧
    handle_config_updated coreId default_exit_fn data =
      (if config_event_matches coreId data
       then Except.error "resotocore config changed." else Except.ok ()) ∧
    run_supervisor (ProcOutcome.restartRequested reason :: rest) = run_supervisor rest := by
  refine ⟨?_, ?_, rfl, rfl⟩
  · intro h
    simp [handle_config_updated, config_event_matches, h]
  · intro hne
    have hm : config_event_matches coreId data = false := by
      unfold config_event_matches
      cases hl : lookupJ "id" data with
      | none => rfl
      | some v =>
        cases v with
        | str s =>
          by_cases hs : s = coreId
          · subst hs
            exact absurd hl hne
          · simp [hs]
        | null => rfl
        | bool b => rfl
        | num n => rfl
        | arr xs => rfl
        | obj kvs => rfl
    simp [handle_config_updated, hm]

theorem core_config_restart_witness :
    handle_config_updated "resoto.core" default_exit_fn [("id", Json.str "resoto.core")] =
      Except.error "resotocore config changed." ∧
    handle_config_updated "resoto.core" default_exit_fn [("id", Json.str "other.config")] =
      Except.ok () ∧
    run_supervisor
      [ProcOutcome.restartRequested "resotocore config changed.", ProcOutcome.finished] =
      some ProcOutcome.finished :=
  have h1 := (core_config_restart "resoto.core" default_exit_fn
    [("id", Json.str "resoto.core")] "r" []).1 rfl
  have h2 := (core_config_restart "resoto.core" default_exit_fn
    [("id", Json.str "other.config")] "r" []).2.1
    (by intro h; simp [lookupJ] at h)
  have h4 := (core_config_restart "resoto.core" default_exit_fn []
    "resotocore config changed." [ProcOutcome.finished]).2.2.2
  ⟨by rw [h1]; rfl, h2, by rw [h4]; rfl⟩

/-- An asyncio future as seen by `set_future_result`: pending, or resolved
with a result or an exception. -/
inductive FutureState where
  | pending
  | resolved (outcome : Except String Json)

/-- Function `set_future_result(future, result)` (util.py): complete the future
with the result — as an exception when the result is one — only when it
is not yet done. -/
def set_future_result (f : FutureState) (result : Except String Json) : FutureState :=
  match f with
  | FutureState.pending => FutureState.resolved result
  | FutureState.resolved o => FutureState.resolved o

/-- C9: a worker-task future is resolved exactly once: completing an
already-resolved future leaves its outcome unchanged, so the first
resolution is the one every awaiter observes. -/
theorem set_future_result_once (o : Except String Json) (r r2 : Except String Json) :
    set_future_result (FutureState.resolved o) r = FutureState.resolved o ∧
    set_future_result (set_future_result FutureState.pending r) r2 =
      set_future_result FutureState.pending r :=
  ⟨rfl, rfl⟩

/-- The rendering environment of `config_yaml` (config_handler_service.py):
`complexKind key` is the schema's structured emitter
(`ComplexKind.create_yaml` at initial level 1) when the key's kind is a
complex kind, and `yamlDump` is `yaml.dump` of the single-key dict with
`sort_keys=False`.  Both live in modules outside the sources and are kept
abstract; the claims below hold for every choice. -/
structure YamlEnv where
  complexKind : String → Option (Json → String)
  yamlDump : String → Json → String

/-- The serialisation loop of `config_yaml`: top-level keys in insertion
order; complex kinds through the structured emitter (preceded by a blank
line except for the first key), other keys through `yaml.dump`. -/
def config_yaml_items (env : YamlEnv) : Nat → List (String × Json) → String
  | _, [] => ""
  | n, (key, value) :: rest =>
    (match env.complexKind key with
     | some render => (if n > 0 then "\n" else "") ++ key ++ ":" ++ render value
     | none => env.yamlDump key value) ++ config_yaml_items env (n + 1) rest

/-- The `_revision` trailer appended when `revision` is requested and the
entity carries one. -/
def revision_trailer (rev : String) : String :=
  "\n\n# This property is not part of the configuration but defines the revision " ++
  "of this document.\n# Please leave it here to avoid conflicting writes.\n" ++
  "_revision: \"" ++ rev ++ "\""

/-- Python truthiness of the optional revision string. -/
def revTruthy : Option String → Bool
  | none => false
  | some s => !s.isEmpty

/-- Method `config_yaml(cfg_id, revision)` (config_handler_service.py), with the
`get_config` result passed in: `None` when no entity is stored; otherwise
the serialised body, with the revision trailer appended only when
`revision` is requested and the stored revision is truthy. -/
def config_yaml (env : YamlEnv) (entity : Option ConfigEntity) (revision : Bool) :
    Option String :=
  match entity with
  | none => none
  | some config =>
    let yamlStr := config_yaml_items env 0 config.config
    some (if revision && revTruthy config.revision
          then yamlStr ++ revision_trailer (config.revision.getD "")
          else yamlStr)

/-- C10: for an id with no stored config entity, `config_yaml` returns
`None` without raising, for any value of the revision flag; and when an
entity is stored that carries no revision, the `_revision` trailer is
omitted even when the revision flag is set. -/
theorem config_yaml_missing_or_no_revision (env : YamlEnv) (e : ConfigEntity) (b : Bool) :
    config_yaml env none b = none ∧
    (e.revision = none →
      config_yaml env (some e) true = some (config_yaml_items env 0 e.config)) := by
  refine ⟨rfl, ?_⟩
  intro h
  unfold config_yaml
  simp [h, revTruthy]

def yamlEnv0 : YamlEnv :=
  { complexKind := fun _ => none, yamlDump := fun k _ => k ++ ": 1\n" }

theorem config_yaml_missing_or_no_revision_witness :
    config_yaml yamlEnv0 none true = none ∧
    config_yaml yamlEnv0 (some ⟨"c1", [("k", Json.num 1)], none⟩) true =
      some (config_yaml_items yamlEnv0 0 [("k", Json.num 1)]) :=
  have h := config_yaml_missing_or_no_revision yamlEnv0 ⟨"c1", [("k", Json.num 1)], none⟩ true
  ⟨h.1, h.2 rfl⟩
